/-
Verification of the YouTube Shorts upload gateway against its design notes.

The development shallowly embeds the Python sources:
  * app/main.py    — clean_title, allowed_file, cleanup_temp_files,
                     get_youtube_service, the /upload route body and the
                     /refresh-token route body;
  * app/utils.py   — update_account_token;
  * app/audio_processor.py — AudioProcessor.mix_audio.

Python strings are embedded as lists of characters; the filesystem is an
association list from paths to file sizes; external effects (the transcode
tool, the OAuth endpoint, the remote upload API, deletion failures) are
supplied through explicit environment records that enumerate their outcomes.
-/
import Mathlib

/-- Python strings are modelled as lists of characters. -/
abbrev Str := List Char

/-- Shorthand turning a Lean string literal into the embedded string type. -/
def strL (s : String) : Str := s.toList

/-- The ASCII whitespace characters recognised by Python's default
`str.split` / `str.strip`. -/
def pyIsSpace (c : Char) : Bool :=
  c = ' ' || c = '\t' || c = '\n' || c = '\r' || c = Char.ofNat 11 || c = Char.ofNat 12

/-- Worker for Python's no-argument `str.split`: `acc` holds the characters of
the word currently being read, in reverse. -/
def splitAuxW : Str → Str → List Str
  | [], acc => if acc.isEmpty then [] else [acc.reverse]
  | c :: cs, acc =>
    if pyIsSpace c then
      if acc.isEmpty then splitAuxW cs [] else acc.reverse :: splitAuxW cs []
    else
      splitAuxW cs (c :: acc)

/-- Python's `s.split()`: split on runs of whitespace, discarding empties. -/
def pySplit (s : Str) : List Str := splitAuxW s []

/-- Tail of `' '.join`: each remaining word is preceded by one space. -/
def joinRest : List Str → Str
  | [] => []
  | w :: ws => ' ' :: (w ++ joinRest ws)

/-- Python's `' '.join(ws)`. -/
def joinSpace : List Str → Str
  | [] => []
  | w :: ws => w ++ joinRest ws

/-- Python's `s.strip()`: drop leading and trailing whitespace. -/
def pyStrip (s : Str) : Str :=
  ((s.dropWhile pyIsSpace).reverse.dropWhile pyIsSpace).reverse

/-- Python's `s.lstrip(c)` for a single strip character. -/
def pyLstrip (c : Char) (s : Str) : Str := s.dropWhile (fun d => d = c)

/-- Python's `s.lower()` (ASCII fragment). -/
def pyLower (s : Str) : Str := s.map Char.toLower

/-- Python's substring test `sub in s`. -/
def pyIn (sub s : Str) : Bool := decide (sub <:+: s)

/-- The characters removed from titles by
`re.sub(r'[<>:{}\[\]|\\^~"\x27\x60]', '', title)` in `clean_title`
(main.py line 38). -/
def forbiddenChar (c : Char) : Bool :=
  c = '<' || c = '>' || c = ':' || c = Char.ofNat 123 || c = Char.ofNat 125 ||
  c = '[' || c = ']' || c = '|' || c = '\\' || c = '^' || c = '~' ||
  c = '"' || c = Char.ofNat 39 || c = Char.ofNat 96

/-- The hashtag suffix built by `clean_title` (main.py lines 43-50):
if the list is truthy and its first element is truthy, strip each tag,
drop blank tags, strip leading `#`, re-prefix with `#`, join with spaces and
append the constant ` #Shorts` marker; otherwise the suffix is just the
marker. -/
def hashtagText (hashtags : List Str) : Str :=
  match hashtags with
  | [] => strL " #Shorts"
  | first :: _ =>
    if first.isEmpty then strL " #Shorts"
    else
      let cleaned_hashtags :=
        (hashtags.filter (fun t => !(pyStrip t).isEmpty)).map
          (fun t => pyLstrip '#' (pyStrip t))
      (' ' :: joinSpace (cleaned_hashtags.map (fun t => '#' :: t))) ++ strL " #Shorts"

/-- The word-accumulation loop of `clean_title` (main.py lines 60-65):
`truncated += word + ' '` while the running length fits, `break` at the
first word that would overflow. -/
def truncLoop : List Str → Str → Int → Str
  | [], acc, _ => acc
  | w :: ws, acc, avail =>
    if (acc.length : Int) + w.length + 1 ≤ avail then
      truncLoop ws (acc ++ w ++ [' ']) avail
    else
      acc

/-- The cleaned leading title of `clean_title` before truncation
(main.py lines 38, 41 and 56): forbidden characters stripped, whitespace
runs collapsed by `' '.join(clean.split())`, then `strip()`. -/
def cleanedTitle (title : Str) : Str :=
  pyStrip (joinSpace (pySplit (title.filter (fun c => !(forbiddenChar c)))))

/-- `available_length = max_length - len(hashtag_text)` (main.py line 53),
an integer since the suffix may exceed `max_length`. -/
def availableBudget (hashtags : List Str) (max_length : Nat) : Int :=
  (max_length : Int) - (hashtagText hashtags).length

/-- `clean_title(title, hashtags, max_length)` from main.py lines 36-69. -/
def clean_title (title : Str) (hashtags : List Str) (max_length : Nat) : Str :=
  let clean2 := cleanedTitle title
  let available := availableBudget hashtags max_length
  let clean3 :=
    if (clean2.length : Int) > available then
      pyStrip (truncLoop (pySplit clean2) [] available)
    else
      clean2
  clean3 ++ hashtagText hashtags

/-- Stated from the spec's words (§4.4) for comparison with the code's
truncation loop: accumulate words while the running length including the
separating space stays within the budget; stop at the first word that would
overflow. -/
def specAccumWords : List Str → Int → Int → List Str
  | [], _, _ => []
  | w :: ws, used, avail =>
    if used + w.length + 1 ≤ avail then
      w :: specAccumWords ws (used + w.length + 1) avail
    else
      []

/-- A word produced by splitting: non-empty and free of whitespace. -/
def goodWord (w : Str) : Prop := w ≠ [] ∧ ∀ c ∈ w, pyIsSpace c = false

/-- Words with a trailing space each, as `truncLoop` accumulates them. -/
def withTrail : List Str → Str
  | [] => []
  | w :: ws => w ++ ' ' :: withTrail ws

/-- `allowed_file(filename)` from main.py lines 71-72: a dot is present and
the lowered extension after the last dot is `mp4` or `mov`. -/
def allowed_file (filename : Str) : Bool :=
  filename.contains '.' &&
    (pyLower ((filename.reverse.takeWhile (fun c => !(c = '.'))).reverse) = strL "mp4" ||
     pyLower ((filename.reverse.takeWhile (fun c => !(c = '.'))).reverse) = strL "mov")

/-- File paths, embedded like the other Python strings. -/
abbrev FPath := List Char

/-- Equality of embedded fallible results is decidable. -/
instance {ε α : Type} [DecidableEq ε] [DecidableEq α] : DecidableEq (Except ε α) := fun x y =>
  match x, y with
  | .error a, .error b =>
    if h : a = b then isTrue (by rw [h]) else isFalse (fun hh => by cases hh; exact h rfl)
  | .ok a, .ok b =>
    if h : a = b then isTrue (by rw [h]) else isFalse (fun hh => by cases hh; exact h rfl)
  | .error _, .ok _ => isFalse (fun hh => by cases hh)
  | .ok _, .error _ => isFalse (fun hh => by cases hh)

/-- The local filesystem: an association list from a path to the size of the
file stored there. -/
abbrev FS := List (FPath × Nat)

/-- Size of the file at `p`, when one exists. -/
def fsLookup : FS → FPath → Option Nat
  | [], _ => none
  | (q, n) :: rest, p => if q = p then some n else fsLookup rest p

/-- `os.path.exists(p)`. -/
def fsHas (fs : FS) (p : FPath) : Bool := (fsLookup fs p).isSome

/-- `os.path.getsize(p)` (0 when the file is absent). -/
def fsSize (fs : FS) (p : FPath) : Nat := (fsLookup fs p).getD 0

/-- Create or overwrite the file at `p` with size `n`. -/
def fsSet : FS → FPath → Nat → FS
  | [], p, n => [(p, n)]
  | (q, m) :: rest, p, n => if q = p then (q, n) :: rest else (q, m) :: fsSet rest p n

/-- `os.unlink(p)` (a no-op when the file is absent). -/
def fsDel : FS → FPath → FS
  | [], _ => []
  | (q, m) :: rest, p => if q = p then fsDel rest p else (q, m) :: fsDel rest p

/-- `cleanup_temp_files(files)` from main.py lines 85-93: each recorded path
is deleted when truthy and existing; `deleteOk p = false` stands for
`os.unlink` raising, which the function logs and swallows, continuing with
the remaining paths. -/
def cleanup_temp_files (deleteOk : FPath → Bool) : List FPath → FS → FS
  | [], fs => fs
  | p :: rest, fs =>
    let fs' :=
      if !p.isEmpty && fsHas fs p then
        if deleteOk p then fsDel fs p else fs
      else
        fs
    cleanup_temp_files deleteOk rest fs'

/-- Outcomes of the external transcode steps in `AudioProcessor.mix_audio`. -/
structure MixEnv where
  /-- ffmpeg integrity probe of the input video exits with code 0. -/
  probeOk : Bool
  /-- The transcode invocation exits with code 0. -/
  ffmpegExitOk : Bool
  /-- Size of the output file the transcode invocation leaves behind
  (`none` when it creates no file at all). -/
  ffmpegOutput : Option Nat
deriving DecidableEq

/-- The exceptions `mix_audio` raises: `FileNotFoundError` for each missing
input, `ValueError` from the probe, `RuntimeError` from the transcode /
empty-output postcondition. -/
inductive MixError
  | videoNotFound
  | soundNotFound
  | invalidMedia
  | processingFailed
deriving DecidableEq

/-- Either `FileNotFoundError` of `mix_audio`. -/
def isInputNotFound : Except MixError FPath → Bool
  | .error .videoNotFound => true
  | .error .soundNotFound => true
  | _ => false

/-- Association-list lookup keyed by embedded strings. -/
def lookupStr {α : Type} : List (Str × α) → Str → Option α
  | [], _ => none
  | (k, v) :: rest, key => if k = key then some v else lookupStr rest key

/-- `AudioProcessor.volume_presets` (audio_processor.py lines 10-14). -/
def volume_presets : List (Str × (Str × Str)) :=
  [(strL "mix", (strL "0.5", strL "0.5")),
   (strL "background", (strL "0.9", strL "0.1")),
   (strL "main", (strL "0.2", strL "0.8"))]

/-- `AudioProcessor.mix_audio(video_path, sound_path, volume_type)`
(audio_processor.py lines 16-74). Returns the raised/returned outcome, the
filesystem afterwards, whether the probe ran and whether the transcode ran. -/
def mix_audio (env : MixEnv) (fs : FS) (video_path sound_path output_path : FPath)
    (volume_type : Str) : Except MixError FPath × FS × Bool × Bool :=
  let vt := match lookupStr volume_presets volume_type with
    | some _ => volume_type
    | none => strL "mix"
  let _gains := (lookupStr volume_presets vt).getD (strL "0.5", strL "0.5")
  if !fsHas fs video_path then (.error .videoNotFound, fs, false, false)
  else if !fsHas fs sound_path then (.error .soundNotFound, fs, false, false)
  else if !env.probeOk then (.error .invalidMedia, fs, true, false)
  else
    let fs1 := match env.ffmpegOutput with
      | some n => fsSet fs output_path n
      | none => fs
    if env.ffmpegExitOk then
      if fsHas fs1 output_path && decide (0 < fsSize fs1 output_path) then
        (.ok output_path, fs1, true, true)
      else
        (.error .processingFailed, fsDel fs1 output_path, true, true)
    else
      (.error .processingFailed, fsDel fs1 output_path, true, true)

/-- The string sentinel `'None'` treated as an absent token
(main.py lines 126-128 and 407-409). -/
def normToken (t : Option Str) : Option Str :=
  match t with
  | some s => if s = strL "None" then none else some s
  | none => none

/-- The marker searched for in refresh-error text (main.py lines 166, 445). -/
def invalidGrantMarker : Str := strL "invalid_grant"

/-- Inputs of `get_youtube_service(credentials_data, account_name)`:
the stored token, the freshness of that token, the outcome of
`credentials.refresh` (error text, or the token and expiry it installs),
and the account name argument. -/
structure ServiceEnv where
  token : Option Str
  expired : Bool
  refreshResult : Except Str (Option Str × Option Str)
  accountName : Option Str
deriving DecidableEq

/-- Which branch of the token-saving logic ran (main.py lines 149-160). -/
inductive SaveAction
  | savedWithExpiry
  | savedNoExpiry
  | notSavedNoAccount
  | notSavedNoToken
  | noRefreshNeeded
deriving DecidableEq

/-- Result of `get_youtube_service`: the built service, the re-authentication
exception of line 168, or the re-raised refresh error of line 169. -/
inductive ServiceResult
  | service (saved : SaveAction)
  | reauthError
  | refreshError (msg : Str)
deriving DecidableEq

/-- `true` when `get_youtube_service` raised instead of returning a service. -/
def isServiceError : ServiceResult → Bool
  | .service _ => false
  | .reauthError => true
  | .refreshError _ => true

/-- `get_youtube_service` (main.py lines 120-174), with the HTTP transport,
`build` and the Google credentials object abstracted into `ServiceEnv`. -/
def get_youtube_service (env : ServiceEnv) : ServiceResult :=
  let token := normToken env.token
  if token.isNone || env.expired then
    match env.refreshResult with
    | .error msg =>
      if pyIn invalidGrantMarker (pyLower msg) then .reauthError
      else .refreshError msg
    | .ok (newTok, expiry) =>
      match newTok, env.accountName with
      | some _, some name =>
        if name.isEmpty then .service .notSavedNoAccount
        else match expiry with
          | some _ => .service .savedWithExpiry
          | none => .service .savedNoExpiry
      | some _, none => .service .notSavedNoAccount
      | none, _ => .service .notSavedNoToken
  else .service .noRefreshNeeded

/-- Inputs of the `/refresh-token` route body: the posted account name, the
outcome of `load_accounts` (`none` when it raises), and the outcome of
`credentials.refresh`. -/
structure RefreshTokenEnv where
  accountname : Option Str
  loadResult : Option (List Str)
  refreshResult : Except Str (Option Str × Option Str)
deriving DecidableEq

/-- An HTTP response of one of the routes. -/
inductive RouteResp
  | ok (payload : Str)
  | err (code : Nat) (msg : Str)
deriving DecidableEq

/-- The `/refresh-token` route body (main.py lines 380-456). -/
def refresh_token_route (env : RefreshTokenEnv) : RouteResp :=
  let anameOk := match env.accountname with
    | some a => !a.isEmpty
    | none => false
  if !anameOk then .err 400 (strL "Account name is required")
  else match env.loadResult with
    | none => .err 500 (strL "Error loading account configuration")
    | some accounts =>
      let aname := env.accountname.getD []
      if aname ∈ accounts then
        match env.refreshResult with
        | .error msg =>
          if pyIn invalidGrantMarker (pyLower msg) then
            .err 401 (strL "OAuth refresh token is invalid or revoked")
          else
            .err 500 (strL "Error refreshing token: " ++ msg)
        | .ok (some _tok, expiry) =>
          .ok (match expiry with | some e => e | none => strL "unknown")
        | .ok (none, _) => .err 500 (strL "No token received after refresh")
      else .err 404 (strL "Account not found")

/-- One credential record of accounts.json (utils.py line 20 lists the
required keys; `token_expiry` is written by updates). -/
structure AccountRec where
  client_id : Str
  client_secret : Str
  refresh_token : Str
  token : Str
  token_expiry : Option Str
deriving DecidableEq

/-- The parsed accounts mapping: account name to credential record. -/
abbrev Accounts := List (Str × AccountRec)

/-- The in-place mutation of utils.py lines 56-60: overwrite `token`, and
`token_expiry` only when the supplied expiry is truthy. -/
def setAccountToken (accounts : Accounts) (account_name token : Str)
    (expiry : Option Str) : Accounts :=
  accounts.map (fun kv =>
    if kv.1 = account_name then
      (kv.1,
       { kv.2 with
         token := token,
         token_expiry :=
           match expiry with
           | some e => if e.isEmpty then kv.2.token_expiry else some e
           | none => kv.2.token_expiry })
    else kv)

/-- `update_account_token(account_name, token, expiry)` (utils.py lines
39-76). `file`/`bak` are the bytes of accounts.json and of its `.bak`
neighbour (`none` = missing); `parse` is `json.load`, returning `none` when
it raises, and `dump` is `json.dump(..., indent=2)`. Returns the boolean
result together with both files afterwards. -/
def update_account_token (parse : Str → Option Accounts) (dump : Accounts → Str)
    (file bak : Option Str) (account_name token : Str) (expiry : Option Str) :
    Bool × Option Str × Option Str :=
  match file with
  | none => (false, none, bak)
  | some content =>
    match parse content with
    | none => (false, some content, bak)
    | some accounts =>
      match lookupStr accounts account_name with
      | none => (false, some content, bak)
      | some _ =>
        let accounts' := setAccountToken accounts account_name token expiry
        (true, some (dump accounts'), some content)

/-- Failures of the remote upload stage of `/upload`: an `HttpError` from the
API (main.py lines 309-326) or any other exception (lines 327-329); both are
turned into 500 responses. -/
inductive YoutubeErr
  | http (msg : Str)
  | other (msg : Str)
deriving DecidableEq

/-- Inputs of the `/upload` route body (main.py lines 176-338): the request
fields, the outcomes of every external step, and the starting filesystem. -/
structure UploadEnv where
  /-- The request content type mentions multipart/form-data. -/
  contentTypeMultipart : Bool
  /-- `'video' in request.files`. -/
  hasVideoFile : Bool
  /-- The filename of the video part (`none`: falsy file object). -/
  videoFilename : Option Str
  /-- The `accountname` form field. -/
  accountname : Option Str
  /-- The `sound_name` form field. -/
  sound_name : Option Str
  /-- The `sound_aud_vol` form field (defaulted to `mix` at the call). -/
  sound_aud_vol : Option Str
  /-- `load_accounts()` outcome: account names, or `none` when it raises. -/
  loadAccounts : Option (List Str)
  /-- `find_sound_file(sound_name)` outcome. -/
  soundPath : Option FPath
  /-- The unique name handed out by `tempfile.NamedTemporaryFile`. -/
  tempVideoName : FPath
  /-- `video.save` succeeds. -/
  saveOk : Bool
  /-- Outcomes of the external transcode steps inside the mixer. -/
  mixEnv : MixEnv
  /-- The unique output name generated inside the mixer. -/
  mixOutputName : FPath
  /-- Outcome of `get_youtube_service` plus the chunked upload loop:
  the returned video id, or the exception raised. -/
  uploadResult : Except YoutubeErr Str
  /-- The filesystem when the request arrives. -/
  fs0 : FS
deriving DecidableEq

/-- The YouTube stage of the route (main.py lines 255-329), entered with the
temp files recorded so far and the current filesystem. -/
def uploadStage (env : UploadEnv) (tfs : List FPath) (fs : FS) :
    RouteResp × List FPath × FS :=
  match env.uploadResult with
  | .ok vid => (.ok vid, tfs, fs)
  | .error (.http m) => (.err 500 (strL "Error uploading to YouTube: " ++ m), tfs, fs)
  | .error (.other m) => (.err 500 (strL "Error uploading to YouTube: " ++ m), tfs, fs)

/-- The body of `upload_video` (main.py lines 176-334), i.e. everything up to
but excluding the `finally` block: returns the response, the `temp_files`
list recorded so far, and the filesystem at that point. -/
def upload_body (env : UploadEnv) : RouteResp × List FPath × FS :=
  if !env.contentTypeMultipart then
    (.err 400 (strL "Invalid content type. Must be multipart/form-data"), [], env.fs0)
  else if !env.hasVideoFile then
    (.err 400 (strL "No video file provided"), [], env.fs0)
  else
    match env.videoFilename with
    | none => (.err 400 (strL "No video file selected"), [], env.fs0)
    | some fname =>
      if fname.isEmpty then
        (.err 400 (strL "No video file selected"), [], env.fs0)
      else if !allowed_file fname then
        (.err 400 (strL "Invalid file type. Allowed types are: mp4, mov"), [], env.fs0)
      else
        let anameOk := match env.accountname with
          | some a => !a.isEmpty
          | none => false
        if !anameOk then
          (.err 400 (strL "Account name is required"), [], env.fs0)
        else
          match env.loadAccounts with
          | none => (.err 500 (strL "Error loading account configuration"), [], env.fs0)
          | some accounts =>
            if env.accountname.getD [] ∈ accounts then
              let fs1 := fsSet env.fs0 env.tempVideoName 0
              let tf1 := [env.tempVideoName]
              if !env.saveOk then
                (.err 500 (strL "Error saving video file"), tf1, fs1)
              else
                let soundRequested := match env.sound_name with
                  | some s => !s.isEmpty
                  | none => false
                if soundRequested then
                  match env.soundPath with
                  | none => (.err 404 (strL "Sound file not found"), tf1, fs1)
                  | some spath =>
                    let m := mix_audio env.mixEnv fs1 env.tempVideoName spath
                      env.mixOutputName (env.sound_aud_vol.getD (strL "mix"))
                    match m.1 with
                    | .error _ => (.err 500 (strL "Error processing audio"), tf1, m.2.1)
                    | .ok outp => uploadStage env (tf1 ++ [outp]) m.2.1
                else
                  uploadStage env tf1 fs1
            else
              (.err 404 (strL "Account not found"), [], env.fs0)

/-- The `/upload` route (main.py lines 176-338): the body, then the
`finally` block running `cleanup_temp_files` over the recorded list. -/
def upload_video (env : UploadEnv) (deleteOk : FPath → Bool) :
    RouteResp × List FPath × FS :=
  ((upload_body env).1,
   (upload_body env).2.1,
   cleanup_temp_files deleteOk (upload_body env).2.1 (upload_body env).2.2)

/-- A concrete request environment in which every stage succeeds, used to
instantiate the cleanup theorem. -/
def exampleUploadEnv : UploadEnv :=
  { contentTypeMultipart := true
    hasVideoFile := true
    videoFilename := some (strL "clip.mp4")
    accountname := some (strL "alice")
    sound_name := some (strL "beat")
    sound_aud_vol := some (strL "background")
    loadAccounts := some [strL "alice"]
    soundPath := some (strL "/app/sounds/beat.mp3")
    tempVideoName := strL "/tmp/tmpabc.mp4"
    saveOk := true
    mixEnv := { probeOk := true, ffmpegExitOk := true, ffmpegOutput := some 5 }
    mixOutputName := strL "/tmp/output_dead.mp4"
    uploadResult := .ok (strL "vid123")
    fs0 := [(strL "/app/sounds/beat.mp3", 3)] }

/-- A concrete credential record for instantiating the account-store theorem. -/
def exampleAccountRec : AccountRec :=
  { client_id := strL "ci", client_secret := strL "cs", refresh_token := strL "rt",
    token := strL "tk", token_expiry := none }

def exampleAccounts : Accounts := [(strL "alice", exampleAccountRec)]

def exampleParse : Str → Option Accounts := fun _ => some exampleAccounts

def exampleDump : Accounts → Str := fun _ => strL "dumped"

theorem splitAuxW_good (s : Str) : ∀ (acc : Str), (∀ c ∈ acc, pyIsSpace c = false) →
    ∀ w ∈ splitAuxW s acc, goodWord w := by
  induction s with
  | nil =>
    intro acc hacc w hw
    unfold splitAuxW at hw
    by_cases he : acc = []
    · simp [he] at hw
    · simp [he] at hw
      subst hw
      refine ⟨by simpa using he, ?_⟩
      intro c hc
      exact hacc c (List.mem_reverse.mp hc)
  | cons c cs ih =>
    intro acc hacc w hw
    unfold splitAuxW at hw
    by_cases hsp : pyIsSpace c
    · by_cases he : acc = []
      · simp [hsp, he] at hw
        exact ih [] (by simp) w hw
      · simp [hsp, he] at hw
        rcases hw with hw | hw
        · subst hw
          refine ⟨by simpa using he, ?_⟩
          intro d hd
          exact hacc d (List.mem_reverse.mp hd)
        · exact ih [] (by simp) w hw
    · simp [hsp] at hw
      refine ih (c :: acc) ?_ w hw
      intro d hd
      rcases List.mem_cons.mp hd with hd | hd
      · subst hd
        simpa using hsp
      · exact hacc d hd

theorem pySplit_good (s : Str) : ∀ w ∈ pySplit s, goodWord w :=
  splitAuxW_good s [] (by simp)

theorem truncLoop_eq_withTrail (ws : List Str) : ∀ (acc : Str) (avail : Int),
    truncLoop ws acc avail = acc ++ withTrail (specAccumWords ws acc.length avail) := by
  induction ws with
  | nil => intro acc avail; simp [truncLoop, specAccumWords, withTrail]
  | cons w ws ih =>
    intro acc avail
    unfold truncLoop specAccumWords
    by_cases h : (acc.length : Int) + w.length + 1 ≤ avail
    · simp only [h, if_pos]
      rw [ih]
      have hlen : (((acc ++ w ++ [' ']).length : Nat) : Int) = (acc.length : Int) + w.length + 1 := by
        simp [List.length_append]
        omega
      rw [hlen]
      simp [withTrail, List.append_assoc]
    · simp only [h, if_neg, not_false_iff]
      simp [withTrail]

theorem specAccumWords_prefix (ws : List Str) : ∀ (used avail : Int),
    specAccumWords ws used avail <+: ws := by
  induction ws with
  | nil => intro used avail; simp [specAccumWords]
  | cons w ws ih =>
    intro used avail
    unfold specAccumWords
    by_cases h : used + w.length + 1 ≤ avail
    · simp only [h, if_pos]
      obtain ⟨t, ht⟩ := ih (used + w.length + 1) avail
      exact ⟨t, by rw [List.cons_append, ht]⟩
    · simp [h]

theorem joinRest_eq (v : Str) (vs : List Str) :
    joinRest (v :: vs) = ' ' :: joinSpace (v :: vs) := rfl

theorem withTrail_eq_join (gs : List Str) (hgs : gs ≠ []) :
    withTrail gs = joinSpace gs ++ [' '] := by
  induction gs with
  | nil => contradiction
  | cons w ws ih =>
    cases ws with
    | nil => simp [withTrail, joinSpace, joinRest]
    | cons v vs =>
      have h1 : withTrail (w :: v :: vs) = w ++ ' ' :: withTrail (v :: vs) := rfl
      rw [h1, ih (by simp)]
      show w ++ ' ' :: (joinSpace (v :: vs) ++ [' ']) = (w ++ joinRest (v :: vs)) ++ [' ']
      rw [joinRest_eq]
      simp

theorem joinSpace_head (gs : List Str) (hgs : gs ≠ []) (h : ∀ w ∈ gs, goodWord w) :
    ∃ c t, joinSpace gs = c :: t ∧ pyIsSpace c = false := by
  cases gs with
  | nil => contradiction
  | cons w ws =>
    obtain ⟨hne, hns⟩ := h w (by simp)
    cases w with
    | nil => contradiction
    | cons c w' =>
      exact ⟨c, w' ++ joinRest ws, rfl, hns c (by simp)⟩

theorem joinSpace_rev_head (gs : List Str) (hgs : gs ≠ []) (h : ∀ w ∈ gs, goodWord w) :
    ∃ c t, (joinSpace gs).reverse = c :: t ∧ pyIsSpace c = false := by
  induction gs with
  | nil => contradiction
  | cons w ws ih =>
    obtain ⟨hne, hns⟩ := h w (by simp)
    cases ws with
    | nil =>
      cases hrw : w.reverse with
      | nil => exact absurd (by simpa using hrw) hne
      | cons c t =>
        refine ⟨c, t, ?_, ?_⟩
        · show (w ++ joinRest []).reverse = c :: t
          simpa [joinRest] using hrw
        · refine hns c ?_
          have : c ∈ w.reverse := by rw [hrw]; simp
          exact List.mem_reverse.mp this
    | cons v vs =>
      obtain ⟨c, t, hct, hc⟩ := ih (by simp) (fun u hu => h u (by simp [hu]))
      refine ⟨c, t ++ [' '] ++ w.reverse, ?_, hc⟩
      show (w ++ joinRest (v :: vs)).reverse = c :: (t ++ [' '] ++ w.reverse)
      rw [joinRest_eq]
      rw [List.reverse_append]
      rw [List.reverse_cons]
      rw [hct]
      simp

theorem pyStrip_withTrail (gs : List Str) (h : ∀ w ∈ gs, goodWord w) :
    pyStrip (withTrail gs) = joinSpace gs := by
  cases gs with
  | nil => rfl
  | cons w ws =>
    rw [withTrail_eq_join _ (by simp)]
    obtain ⟨c, t, hct, hc⟩ := joinSpace_head (w :: ws) (by simp) h
    obtain ⟨c', t', hct', hc'⟩ := joinSpace_rev_head (w :: ws) (by simp) h
    unfold pyStrip
    have h1 : List.dropWhile pyIsSpace (joinSpace (w :: ws) ++ [' ']) =
        joinSpace (w :: ws) ++ [' '] := by
      rw [hct]
      rw [List.cons_append]
      rw [List.dropWhile_cons]
      simp [hc]
    rw [h1]
    have h2 : (joinSpace (w :: ws) ++ [' ']).reverse = ' ' :: (joinSpace (w :: ws)).reverse := by
      simp
    rw [h2]
    rw [List.dropWhile_cons]
    have hsp : pyIsSpace ' ' = true := rfl
    simp only [hsp, if_pos]
    rw [hct']
    rw [List.dropWhile_cons]
    simp [hc', ← hct']

theorem splitAuxW_append (w : Str) : ∀ (s acc : Str), (∀ c ∈ w, pyIsSpace c = false) →
    splitAuxW (w ++ s) acc = splitAuxW s (w.reverse ++ acc) := by
  induction w with
  | nil => intro s acc _; simp
  | cons c w' ih =>
    intro s acc hw
    have hc : pyIsSpace c = false := hw c (by simp)
    have step : splitAuxW (c :: (w' ++ s)) acc = splitAuxW (w' ++ s) (c :: acc) := by
      conv_lhs => rw [splitAuxW]
      simp [hc]
    rw [List.cons_append, step, ih s (c :: acc) (fun d hd => hw d (by simp [hd]))]
    congr 1
    simp

theorem pySplit_joinSpace (gs : List Str) (h : ∀ w ∈ gs, goodWord w) :
    pySplit (joinSpace gs) = gs := by
  induction gs with
  | nil => rfl
  | cons w ws ih =>
    obtain ⟨hne, hns⟩ := h w (by simp)
    have hwrev : w.reverse ≠ [] := by simpa using hne
    cases ws with
    | nil =>
      show splitAuxW (joinSpace [w]) [] = [w]
      have : joinSpace [w] = w ++ [] := by simp [joinSpace, joinRest]
      rw [this, splitAuxW_append w [] [] hns]
      unfold splitAuxW
      simp [hwrev]
    | cons v vs =>
      show splitAuxW (joinSpace (w :: v :: vs)) [] = w :: v :: vs
      have hj : joinSpace (w :: v :: vs) = w ++ (' ' :: joinSpace (v :: vs)) := by
        show w ++ joinRest (v :: vs) = _
        rw [joinRest_eq]
      rw [hj, splitAuxW_append w _ [] hns]
      unfold splitAuxW
      have hsp : pyIsSpace ' ' = true := rfl
      simp only [hsp, if_pos, List.append_nil, hwrev]
      have hree : (w.reverse.isEmpty) = false := by
        cases hr : w.reverse with
        | nil => exact absurd hr hwrev
        | cons a b => rfl
      simp only [hree, Bool.false_eq_true, if_neg, not_false_iff]
      rw [List.reverse_reverse]
      exact congrArg (w :: ·) (ih (fun u hu => h u (by simp [hu])))

/-- Claim C5: when the cleaned title exceeds the available budget
(`max_length` minus the suffix length), `clean_title` truncates only on
whole-word boundaries: its leading segment is exactly the spec's greedy
accumulation (words added while the running length including the separating
space stays within budget, stopping at the first overflowing word), that
accumulation is a prefix of the cleaned title's words, and every word of the
truncated output appears intact as a word of the cleaned input title. -/
theorem clean_title_whole_word_truncation (title : Str) (hashtags : List Str) (max_length : Nat)
    (h : ((cleanedTitle title).length : Int) > availableBudget hashtags max_length) :
    clean_title title hashtags max_length =
      joinSpace (specAccumWords (pySplit (cleanedTitle title)) 0
        (availableBudget hashtags max_length)) ++ hashtagText hashtags
    ∧ specAccumWords (pySplit (cleanedTitle title)) 0 (availableBudget hashtags max_length) <+:
        pySplit (cleanedTitle title)
    ∧ ∀ w ∈ pySplit (joinSpace (specAccumWords (pySplit (cleanedTitle title)) 0
        (availableBudget hashtags max_length))),
        w ∈ pySplit (cleanedTitle title) := by
  have hgood : ∀ w ∈ pySplit (cleanedTitle title), goodWord w := pySplit_good _
  have hpre : specAccumWords (pySplit (cleanedTitle title)) 0
      (availableBudget hashtags max_length) <+: pySplit (cleanedTitle title) :=
    specAccumWords_prefix _ 0 _
  have htwgood : ∀ w ∈ specAccumWords (pySplit (cleanedTitle title)) 0
      (availableBudget hashtags max_length), goodWord w :=
    fun w hw => hgood w (hpre.sublist.subset hw)
  have hround : pySplit (joinSpace (specAccumWords (pySplit (cleanedTitle title)) 0
      (availableBudget hashtags max_length))) =
      specAccumWords (pySplit (cleanedTitle title)) 0 (availableBudget hashtags max_length) :=
    pySplit_joinSpace _ htwgood
  refine ⟨?_, hpre, ?_⟩
  · simp only [clean_title]
    rw [if_pos h]
    have := truncLoop_eq_withTrail (pySplit (cleanedTitle title)) []
      (availableBudget hashtags max_length)
    simp only [List.length_nil, Nat.cast_zero, List.nil_append] at this
    rw [this, pyStrip_withTrail _ htwgood]
  · intro w hw
    rw [hround] at hw
    exact hpre.sublist.subset hw

/-- Claim C6: `clean_title("Hello <world>", ["fun","Fun "], 100)` returns
exactly `"Hello world #fun #Fun #Shorts"`: forbidden characters stripped,
hashtags kept in order without case-folding deduplication, each tag prefixed
with a single `#`, and the constant trailing marker appended. -/
theorem clean_title_example :
    clean_title (strL "Hello <world>") [strL "fun", strL "Fun "] 100 =
      strL "Hello world #fun #Fun #Shorts" := by decide

/-- Claim C7: whenever the hashtag suffix meets or exceeds `max_length`
(so the available budget is at most zero), `clean_title` does not raise: it
returns an empty leading title segment followed by the full hashtag
suffix. -/
theorem clean_title_suffix_overflow (title : Str) (hashtags : List Str) (max_length : Nat)
    (h : max_length ≤ (hashtagText hashtags).length) :
    clean_title title hashtags max_length = hashtagText hashtags := by
  have havail : availableBudget hashtags max_length ≤ 0 := by
    unfold availableBudget
    omega
  by_cases hc : ((cleanedTitle title).length : Int) > availableBudget hashtags max_length
  · have htl : truncLoop (pySplit (cleanedTitle title)) []
        (availableBudget hashtags max_length) = [] := by
      cases hws : pySplit (cleanedTitle title) with
      | nil => rfl
      | cons w ws' =>
        conv_lhs => rw [truncLoop]
        have hno : ¬ ((w.length : Int) + 1 ≤ availableBudget hashtags max_length) := by
          omega
        simp [hno]
    simp only [clean_title]
    rw [if_pos hc, htl]
    rfl
  · have hlen : (cleanedTitle title).length = 0 := by omega
    have hnil : cleanedTitle title = [] := List.length_eq_zero.mp hlen
    simp only [clean_title]
    rw [if_neg hc, hnil]
    rfl

/-- Claim C10: for every title and every non-empty hashtag list whose first
element is the empty string, `clean_title` ignores every hashtag in the list
(including later non-empty ones) and the suffix is just the constant
` #Shorts` marker. -/
theorem clean_title_empty_first_hashtag (title : Str) (rest : List Str) (max_length : Nat) :
    clean_title title ([] :: rest) max_length = clean_title title [] max_length
    ∧ hashtagText ([] :: rest) = strL " #Shorts" := by
  have hh : hashtagText ([] :: rest) = hashtagText [] := rfl
  constructor
  · simp only [clean_title, availableBudget, hh]
  · rfl

theorem fsLookup_fsSet_self (fs : FS) (p : FPath) (n : Nat) :
    fsLookup (fsSet fs p n) p = some n := by
  induction fs with
  | nil => simp [fsSet, fsLookup]
  | cons kv rest ih =>
    obtain ⟨q, m⟩ := kv
    by_cases h : q = p
    · simp [fsSet, fsLookup, h]
    · simp [fsSet, fsLookup, h, ih]

theorem fsLookup_fsSet_ne (fs : FS) (p : FPath) (n : Nat) (q : FPath) (h : q ≠ p) :
    fsLookup (fsSet fs p n) q = fsLookup fs q := by
  induction fs with
  | nil => simp [fsSet, fsLookup, Ne.symm h]
  | cons kv rest ih =>
    obtain ⟨r, m⟩ := kv
    by_cases hr : r = p
    · subst hr
      simp [fsSet, fsLookup, Ne.symm h]
    · by_cases hq : r = q
      · simp [fsSet, fsLookup, hr, hq, h]
      · simp [fsSet, fsLookup, hr, hq, ih]

theorem fsLookup_fsDel_self (fs : FS) (p : FPath) :
    fsLookup (fsDel fs p) p = none := by
  induction fs with
  | nil => simp [fsDel, fsLookup]
  | cons kv rest ih =>
    obtain ⟨q, m⟩ := kv
    by_cases h : q = p
    · simp [fsDel, h, ih]
    · simp [fsDel, fsLookup, h, ih]

theorem fsLookup_fsDel_ne (fs : FS) (p q : FPath) (h : q ≠ p) :
    fsLookup (fsDel fs p) q = fsLookup fs q := by
  induction fs with
  | nil => simp [fsDel]
  | cons kv rest ih =>
    obtain ⟨r, m⟩ := kv
    by_cases hr : r = p
    · subst hr
      simp [fsDel, fsLookup, Ne.symm h, ih]
    · by_cases hq : r = q
      · simp [fsDel, fsLookup, hr, hq, h]
      · simp [fsDel, fsLookup, hr, hq, ih]

theorem fsHas_fsDel_self (fs : FS) (p : FPath) : fsHas (fsDel fs p) p = false := by
  simp [fsHas, fsLookup_fsDel_self]

theorem fsHas_fsDel_ne (fs : FS) (p q : FPath) (h : q ≠ p) :
    fsHas (fsDel fs p) q = fsHas fs q := by
  simp [fsHas, fsLookup_fsDel_ne fs p q h]

theorem fsHas_fsSet_self (fs : FS) (p : FPath) (n : Nat) : fsHas (fsSet fs p n) p = true := by
  simp [fsHas, fsLookup_fsSet_self]

theorem fsHas_fsSet_ne (fs : FS) (p : FPath) (n : Nat) (q : FPath) (h : q ≠ p) :
    fsHas (fsSet fs p n) q = fsHas fs q := by
  simp [fsHas, fsLookup_fsSet_ne fs p n q h]

theorem fsSize_fsSet_self (fs : FS) (p : FPath) (n : Nat) : fsSize (fsSet fs p n) p = n := by
  simp [fsSize, fsLookup_fsSet_self]

/-- Claim C8: with both inputs present, a passing probe and a fresh output
path, if the transcode tool exits unsuccessfully or leaves no output or a
zero-size output, `mix_audio` fails with ProcessingFailed and the
partially-written output is deleted before the error propagates; it returns
the output path exactly when the tool exits successfully and the output
exists with non-zero size (and then the file is on disk with positive
size). -/
theorem mix_audio_postcondition (env : MixEnv) (fs : FS) (v s out : FPath) (vt : Str)
    (hv : fsHas fs v = true) (hs : fsHas fs s = true) (hp : env.probeOk = true)
    (hout : fsHas fs out = false) :
    ((env.ffmpegExitOk = false ∨ env.ffmpegOutput = none ∨ env.ffmpegOutput = some 0) →
      (mix_audio env fs v s out vt).1 = .error .processingFailed
      ∧ fsHas (mix_audio env fs v s out vt).2.1 out = false)
    ∧ ((mix_audio env fs v s out vt).1 = .ok out ↔
        env.ffmpegExitOk = true ∧ ∃ n, env.ffmpegOutput = some n ∧ 0 < n)
    ∧ ((mix_audio env fs v s out vt).1 = .ok out →
        fsHas (mix_audio env fs v s out vt).2.1 out = true
        ∧ 0 < fsSize (mix_audio env fs v s out vt).2.1 out) := by
  cases hek : env.ffmpegExitOk with
  | false =>
    refine ⟨?_, ?_, ?_⟩ <;>
      simp [mix_audio, hv, hs, hp, hek, fsHas_fsDel_self]
  | true =>
    cases hfo : env.ffmpegOutput with
    | none =>
      refine ⟨?_, ?_, ?_⟩ <;>
        simp [mix_audio, hv, hs, hp, hek, hfo, hout, fsHas_fsDel_self]
    | some n =>
      cases n with
      | zero =>
        refine ⟨?_, ?_, ?_⟩ <;>
          simp [mix_audio, hv, hs, hp, hek, hfo, fsHas_fsSet_self, fsSize_fsSet_self,
            fsHas_fsDel_self]
      | succ k =>
        refine ⟨?_, ?_, ?_⟩ <;>
          simp [mix_audio, hv, hs, hp, hek, hfo, fsHas_fsSet_self, fsSize_fsSet_self]

/-- Claim C9: when either input path does not exist, `mix_audio` fails with
the InputNotFound error before the external tool is invoked: neither the
validation probe nor the transcode command runs, and the filesystem is
untouched. -/
theorem mix_audio_missing_input (env : MixEnv) (fs : FS) (v s out : FPath) (vt : Str)
    (h : fsHas fs v = false ∨ fsHas fs s = false) :
    isInputNotFound (mix_audio env fs v s out vt).1 = true
    ∧ (mix_audio env fs v s out vt).2.2.1 = false
    ∧ (mix_audio env fs v s out vt).2.2.2 = false
    ∧ (mix_audio env fs v s out vt).2.1 = fs := by
  by_cases hv : fsHas fs v = false
  · simp [mix_audio, hv, isInputNotFound]
  · have hv' : fsHas fs v = true := by
      cases hb : fsHas fs v
      · exact absurd hb hv
      · rfl
    have hs : fsHas fs s = false := by
      rcases h with h | h
      · exact absurd h hv
      · exact h
    simp [mix_audio, hv', hs, isInputNotFound]

/-- Claim C2: for every credential refresh attempt whose remote error text
contains an invalid-grant indicator in any casing, the surfaced failure is
the terminal re-authentication error: `get_youtube_service` raises the
re-authentication exception, and the `/refresh-token` route answers 401 with
the re-authentication hint — never a generic refresh failure. -/
theorem invalid_grant_yields_reauth (env : ServiceEnv) (renv : RefreshTokenEnv)
    (msg pre mid post name : Str) (accounts : List Str)
    (hmsg : msg = pre ++ mid ++ post)
    (hmid : pyLower mid = strL "invalid_grant")
    (hneed : ((normToken env.token).isNone || env.expired) = true)
    (herr : env.refreshResult = .error msg)
    (hrname : renv.accountname = some name) (hname : name ≠ [])
    (hload : renv.loadResult = some accounts) (hmem : name ∈ accounts)
    (hrerr : renv.refreshResult = .error msg) :
    get_youtube_service env = ServiceResult.reauthError
    ∧ refresh_token_route renv =
        RouteResp.err 401 (strL "OAuth refresh token is invalid or revoked") := by
  have hin : pyIn invalidGrantMarker (pyLower msg) = true := by
    unfold pyIn
    apply decide_eq_true
    refine ⟨pyLower pre, pyLower post, ?_⟩
    rw [hmsg]
    unfold pyLower invalidGrantMarker
    rw [List.map_append, List.map_append, ← hmid]
    rfl
  have hne : name.isEmpty = false := by
    cases hn : name with
    | nil => exact absurd hn hname
    | cons a b => rfl
  constructor
  · simp [get_youtube_service, hneed, herr, hin]
  · simp [refresh_token_route, hrname, hne, hload, hmem, hrerr, hin]

/-- Counterexample to claim C3 as stated: for a credential record whose
refresh call succeeds but yields no access token, `get_youtube_service` does
not fail — it logs a warning and proceeds to build and return the service. -/
theorem refresh_no_token_proceeds_cex :
    get_youtube_service
        { token := none, expired := false, refreshResult := .ok (none, none),
          accountName := some (strL "acct") } =
      ServiceResult.service SaveAction.notSavedNoToken
    ∧ isServiceError (get_youtube_service
        { token := none, expired := false, refreshResult := .ok (none, none),
          accountName := some (strL "acct") }) = false := by
  exact ⟨rfl, rfl⟩

/-- Claim C3 (amended): in the `/refresh-token` route, a refresh call that
completes successfully but yields no access token produces the 500
`No token received after refresh` error response rather than a success;
`get_youtube_service`, by contrast, only logs a warning and proceeds. -/
theorem refresh_route_no_token_is_error (renv : RefreshTokenEnv) (name : Str)
    (accounts : List Str) (e : Option Str)
    (h1 : renv.accountname = some name) (h2 : name ≠ [])
    (h3 : renv.loadResult = some accounts) (h4 : name ∈ accounts)
    (h5 : renv.refreshResult = .ok (none, e)) :
    refresh_token_route renv = RouteResp.err 500 (strL "No token received after refresh") := by
  have hne : name.isEmpty = false := by
    cases hn : name with
    | nil => exact absurd hn h2
    | cons a b => rfl
  simp [refresh_token_route, h1, hne, h3, h4, h5]

/-- Claim C4: for every account name absent from the parsed store and every
token/expiry arguments, `update_account_token` returns false rather than
raising, and both the backing store file and its backup are byte-for-byte
unchanged by the call. -/
theorem update_account_token_unknown_account (parse : Str → Option Accounts)
    (dump : Accounts → Str) (content : Str) (bak : Option Str)
    (account_name token : Str) (expiry : Option Str) (accounts : Accounts)
    (hp : parse content = some accounts)
    (hl : lookupStr accounts account_name = none) :
    update_account_token parse dump (some content) bak account_name token expiry =
      (false, some content, bak) := by
  simp [update_account_token, hp, hl]

theorem fsHas_cleanup_of_false (d : FPath → Bool) (files : List FPath) (fs : FS) (p : FPath)
    (h : fsHas fs p = false) : fsHas (cleanup_temp_files d files fs) p = false := by
  induction files generalizing fs with
  | nil => exact h
  | cons q rest ih =>
    unfold cleanup_temp_files
    apply ih
    split_ifs with h1 h2
    · by_cases hq : p = q
      · subst hq
        exact fsHas_fsDel_self fs p
      · rw [fsHas_fsDel_ne fs q p hq]
        exact h
    · exact h
    · exact h

theorem fsHas_cleanup_of_mem (d : FPath → Bool) (files : List FPath) (fs : FS) (p : FPath)
    (hp : p ∈ files) (hne : p ≠ []) (hd : d p = true) :
    fsHas (cleanup_temp_files d files fs) p = false := by
  induction files generalizing fs with
  | nil => cases hp
  | cons q rest ih =>
    unfold cleanup_temp_files
    rcases List.mem_cons.mp hp with hq | hq
    · subst hq
      apply fsHas_cleanup_of_false
      have hpe : p.isEmpty = false := by
        cases hp2 : p with
        | nil => exact absurd hp2 hne
        | cons a b => rfl
      cases hhas : fsHas fs p with
      | false => simp [hpe, hhas]
      | true => simp [hpe, hhas, hd, fsHas_fsDel_self]
    · exact ih _ hq

theorem fsHas_cleanup_of_not_mem (d : FPath → Bool) (files : List FPath) (fs : FS) (p : FPath)
    (hp : p ∉ files) : fsHas (cleanup_temp_files d files fs) p = fsHas fs p := by
  induction files generalizing fs with
  | nil => rfl
  | cons q rest ih =>
    unfold cleanup_temp_files
    have hpq : p ≠ q := fun h => hp (by simp [h])
    rw [ih _ (fun h => hp (List.mem_cons_of_mem q h))]
    split_ifs with h1 h2
    · exact fsHas_fsDel_ne fs q p hpq
    · rfl
    · rfl

theorem mix_audio_fs_other (env : MixEnv) (fs : FS) (v s out vt q : FPath) (hq : q ≠ out) :
    fsHas (mix_audio env fs v s out vt).2.1 q = fsHas fs q := by
  unfold mix_audio
  cases hv : fsHas fs v <;> cases hs : fsHas fs s <;> cases hpk : env.probeOk <;>
    cases hek : env.ffmpegExitOk <;> cases hfo : env.ffmpegOutput
  all_goals simp [fsHas_fsDel_ne, fsHas_fsSet_ne, hq]
  all_goals split_ifs <;>
    simp [fsHas_fsDel_ne, fsHas_fsSet_ne, fsHas_fsSet_self, fsSize_fsSet_self, hq]

theorem mix_audio_out_cases (env : MixEnv) (fs : FS) (v s out : FPath) (vt : Str)
    (hout : fsHas fs out = false) :
    (mix_audio env fs v s out vt).1 = .ok out
    ∨ fsHas (mix_audio env fs v s out vt).2.1 out = false := by
  unfold mix_audio
  cases hv : fsHas fs v <;> cases hs : fsHas fs s <;> cases hpk : env.probeOk <;>
    cases hek : env.ffmpegExitOk <;> cases hfo : env.ffmpegOutput
  all_goals simp [fsHas_fsDel_self, fsHas_fsSet_self, hout]
  all_goals split_ifs <;>
    simp [fsHas_fsDel_self, fsHas_fsSet_self, fsSize_fsSet_self, hout]

theorem mix_audio_ok_path (env : MixEnv) (fs : FS) (v s out : FPath) (vt : Str) (p : FPath)
    (h : (mix_audio env fs v s out vt).1 = .ok p) : p = out := by
  unfold mix_audio at h
  cases hv : fsHas fs v <;> cases hs : fsHas fs s <;> cases hpk : env.probeOk <;>
    cases hek : env.ffmpegExitOk <;> cases hfo : env.ffmpegOutput
  all_goals simp_all
  all_goals split at h <;> simp_all

theorem uploadStage_snd (env : UploadEnv) (tfs : List FPath) (fs : FS) :
    (uploadStage env tfs fs).2 = (tfs, fs) := by
  unfold uploadStage
  cases env.uploadResult with
  | ok v => rfl
  | error e => cases e <;> rfl

theorem upload_body_facts (env : UploadEnv)
    (hf2 : fsHas env.fs0 env.mixOutputName = false)
    (hd : env.tempVideoName ≠ env.mixOutputName) :
    ((upload_body env).2.1 = [] ∨ (upload_body env).2.1 = [env.tempVideoName]
      ∨ (upload_body env).2.1 = [env.tempVideoName, env.mixOutputName])
    ∧ ∀ p, p ∉ (upload_body env).2.1 →
        fsHas (upload_body env).2.2 p = fsHas env.fs0 p := by
  cases hct : env.contentTypeMultipart with
  | false =>
    have hb : (upload_body env).2 = ([], env.fs0) := by simp [upload_body, hct]
    rw [hb]
    simp
  | true =>
  cases hhv : env.hasVideoFile with
  | false =>
    have hb : (upload_body env).2 = ([], env.fs0) := by simp [upload_body, hct, hhv]
    rw [hb]
    simp
  | true =>
  cases hvf : env.videoFilename with
  | none =>
    have hb : (upload_body env).2 = ([], env.fs0) := by simp [upload_body, hct, hhv, hvf]
    rw [hb]
    simp
  | some fname =>
  cases hfe : fname.isEmpty with
  | true =>
    have hb : (upload_body env).2 = ([], env.fs0) := by
      simp [upload_body, hct, hhv, hvf, hfe]
    rw [hb]
    simp
  | false =>
  cases haf : allowed_file fname with
  | false =>
    have hb : (upload_body env).2 = ([], env.fs0) := by
      simp [upload_body, hct, hhv, hvf, hfe, haf]
    rw [hb]
    simp
  | true =>
  cases han : env.accountname with
  | none =>
    have hb : (upload_body env).2 = ([], env.fs0) := by
      simp [upload_body, hct, hhv, hvf, hfe, haf, han]
    rw [hb]
    simp
  | some aname =>
  cases hae : aname.isEmpty with
  | true =>
    have hb : (upload_body env).2 = ([], env.fs0) := by
      simp [upload_body, hct, hhv, hvf, hfe, haf, han, hae]
    rw [hb]
    simp
  | false =>
  cases hla : env.loadAccounts with
  | none =>
    have hb : (upload_body env).2 = ([], env.fs0) := by
      simp [upload_body, hct, hhv, hvf, hfe, haf, han, hae, hla]
    rw [hb]
    simp
  | some accounts =>
  by_cases hmem : aname ∈ accounts
  case neg =>
    have hb : (upload_body env).2 = ([], env.fs0) := by
      simp [upload_body, hct, hhv, hvf, hfe, haf, han, hae, hla, hmem]
    rw [hb]
    simp
  case pos =>
  cases hso : env.saveOk with
  | false =>
    have hb : (upload_body env).2 =
        ([env.tempVideoName], fsSet env.fs0 env.tempVideoName 0) := by
      simp [upload_body, hct, hhv, hvf, hfe, haf, han, hae, hla, hmem, hso]
    rw [hb]
    refine ⟨Or.inr (Or.inl rfl), ?_⟩
    intro p hp
    simp only [List.mem_singleton] at hp
    exact fsHas_fsSet_ne env.fs0 env.tempVideoName 0 p hp
  | true =>
  have hnosound : ∀ (hreq : (match env.sound_name with
      | some s => !s.isEmpty
      | none => false) = false),
      ((upload_body env).2.1 = [] ∨ (upload_body env).2.1 = [env.tempVideoName]
        ∨ (upload_body env).2.1 = [env.tempVideoName, env.mixOutputName])
      ∧ ∀ p, p ∉ (upload_body env).2.1 →
          fsHas (upload_body env).2.2 p = fsHas env.fs0 p := by
    intro hreq
    have hb : (upload_body env).2 =
        ([env.tempVideoName], fsSet env.fs0 env.tempVideoName 0) := by
      simp [upload_body, hct, hhv, hvf, hfe, haf, han, hae, hla, hmem, hso, hreq,
        uploadStage_snd]
    rw [hb]
    refine ⟨Or.inr (Or.inl rfl), ?_⟩
    intro p hp
    simp only [List.mem_singleton] at hp
    exact fsHas_fsSet_ne env.fs0 env.tempVideoName 0 p hp
  cases hsn : env.sound_name with
  | none => exact hnosound (by simp [hsn])
  | some sname =>
  cases hse : sname.isEmpty with
  | true => exact hnosound (by simp [hsn, hse])
  | false =>
  cases hsp : env.soundPath with
  | none =>
    have hb : (upload_body env).2 =
        ([env.tempVideoName], fsSet env.fs0 env.tempVideoName 0) := by
      simp [upload_body, hct, hhv, hvf, hfe, haf, han, hae, hla, hmem, hso, hsn, hse, hsp]
    rw [hb]
    refine ⟨Or.inr (Or.inl rfl), ?_⟩
    intro p hp
    simp only [List.mem_singleton] at hp
    exact fsHas_fsSet_ne env.fs0 env.tempVideoName 0 p hp
  | some spath =>
  have houtfresh : fsHas (fsSet env.fs0 env.tempVideoName 0) env.mixOutputName = false := by
    rw [fsHas_fsSet_ne env.fs0 env.tempVideoName 0 env.mixOutputName (Ne.symm hd)]
    exact hf2
  cases hm : (mix_audio env.mixEnv (fsSet env.fs0 env.tempVideoName 0) env.tempVideoName
      spath env.mixOutputName (env.sound_aud_vol.getD (strL "mix"))).1 with
  | error merr =>
    have hb : (upload_body env).2 =
        ([env.tempVideoName],
          (mix_audio env.mixEnv (fsSet env.fs0 env.tempVideoName 0) env.tempVideoName
            spath env.mixOutputName (env.sound_aud_vol.getD (strL "mix"))).2.1) := by
      simp [upload_body, hct, hhv, hvf, hfe, haf, han, hae, hla, hmem, hso, hsn, hse,
        hsp, hm]
    rw [hb]
    refine ⟨Or.inr (Or.inl rfl), ?_⟩
    intro p hp
    simp only [List.mem_singleton] at hp
    by_cases hpm : p = env.mixOutputName
    · subst hpm
      rcases mix_audio_out_cases env.mixEnv (fsSet env.fs0 env.tempVideoName 0)
          env.tempVideoName spath env.mixOutputName (env.sound_aud_vol.getD (strL "mix"))
          houtfresh with hok | hno
      · rw [hok] at hm
        cases hm
      · rw [hno, hf2]
    · rw [mix_audio_fs_other env.mixEnv (fsSet env.fs0 env.tempVideoName 0)
        env.tempVideoName spath env.mixOutputName (env.sound_aud_vol.getD (strL "mix"))
        p hpm]
      exact fsHas_fsSet_ne env.fs0 env.tempVideoName 0 p hp
  | ok outp =>
    have ho : outp = env.mixOutputName :=
      mix_audio_ok_path env.mixEnv (fsSet env.fs0 env.tempVideoName 0) env.tempVideoName
        spath env.mixOutputName (env.sound_aud_vol.getD (strL "mix")) outp hm
    subst ho
    have hb : (upload_body env).2 =
        ([env.tempVideoName, env.mixOutputName],
          (mix_audio env.mixEnv (fsSet env.fs0 env.tempVideoName 0) env.tempVideoName
            spath env.mixOutputName (env.sound_aud_vol.getD (strL "mix"))).2.1) := by
      simp [upload_body, hct, hhv, hvf, hfe, haf, han, hae, hla, hmem, hso, hsn, hse,
        hsp, hm, uploadStage_snd]
    rw [hb]
    refine ⟨Or.inr (Or.inr rfl), ?_⟩
    intro p hp
    simp only [List.mem_cons, List.not_mem_nil, or_false, not_or] at hp
    obtain ⟨hp1, hp2⟩ := hp
    rw [mix_audio_fs_other env.mixEnv (fsSet env.fs0 env.tempVideoName 0)
      env.tempVideoName spath env.mixOutputName (env.sound_aud_vol.getD (strL "mix"))
      p hp2]
    exact fsHas_fsSet_ne env.fs0 env.tempVideoName 0 p hp1

/-- Claim C1: for every `/upload` request, on every exit path the `finally`
cleanup runs over every temporary file recorded: every recorded path whose
deletion succeeds is gone afterwards even if other deletions fail, deletion
failures never change the response, and when all deletions succeed the
filesystem is pointwise restored to its pre-request state, so no temp
artifact allocated by the request remains on disk. -/
theorem upload_video_cleanup_every_path (env : UploadEnv) (deleteOk : FPath → Bool)
    (hf1 : fsHas env.fs0 env.tempVideoName = false)
    (hf2 : fsHas env.fs0 env.mixOutputName = false)
    (hn1 : env.tempVideoName ≠ [])
    (hn2 : env.mixOutputName ≠ [])
    (hd : env.tempVideoName ≠ env.mixOutputName) :
    (∀ p ∈ (upload_video env deleteOk).2.1, deleteOk p = true →
      fsHas (upload_video env deleteOk).2.2 p = false)
    ∧ (∀ d2 : FPath → Bool, (upload_video env d2).1 = (upload_video env deleteOk).1)
    ∧ ((∀ q, deleteOk q = true) →
        ∀ p, fsHas (upload_video env deleteOk).2.2 p = fsHas env.fs0 p) := by
  obtain ⟨htfs, hfs⟩ := upload_body_facts env hf2 hd
  have h21 : (upload_video env deleteOk).2.1 = (upload_body env).2.1 := rfl
  have h22 : (upload_video env deleteOk).2.2 =
      cleanup_temp_files deleteOk (upload_body env).2.1 (upload_body env).2.2 := rfl
  have hmem_char : ∀ p, p ∈ (upload_body env).2.1 →
      (p = env.tempVideoName ∨ p = env.mixOutputName) := by
    intro p hp
    rcases htfs with h | h | h <;> rw [h] at hp
    · cases hp
    · simp only [List.mem_singleton] at hp
      exact Or.inl hp
    · simp only [List.mem_cons, List.not_mem_nil, or_false] at hp
      exact hp
  have hmem_ne : ∀ p, p ∈ (upload_body env).2.1 → p ≠ [] := by
    intro p hp
    rcases hmem_char p hp with h | h <;> subst h
    · exact hn1
    · exact hn2
  refine ⟨?_, ?_, ?_⟩
  · intro p hp hdp
    rw [h22]
    rw [h21] at hp
    exact fsHas_cleanup_of_mem deleteOk _ _ p hp (hmem_ne p hp) hdp
  · intro d2
    rfl
  · intro hall p
    rw [h22]
    by_cases hp : p ∈ (upload_body env).2.1
    · have hzero : fsHas env.fs0 p = false := by
        rcases hmem_char p hp with h | h <;> subst h
        · exact hf1
        · exact hf2
      rw [fsHas_cleanup_of_mem deleteOk _ _ p hp (hmem_ne p hp) (hall p), hzero]
    · rw [fsHas_cleanup_of_not_mem deleteOk _ _ p hp]
      exact hfs p hp

theorem upload_video_cleanup_witness :
    (fsHas exampleUploadEnv.fs0 exampleUploadEnv.tempVideoName = false
      ∧ fsHas exampleUploadEnv.fs0 exampleUploadEnv.mixOutputName = false
      ∧ exampleUploadEnv.tempVideoName ≠ []
      ∧ exampleUploadEnv.mixOutputName ≠ []
      ∧ exampleUploadEnv.tempVideoName ≠ exampleUploadEnv.mixOutputName)
    ∧ ((∀ p ∈ (upload_video exampleUploadEnv (fun _ => true)).2.1,
          (fun _ : FPath => true) p = true →
          fsHas (upload_video exampleUploadEnv (fun _ => true)).2.2 p = false)
      ∧ (∀ d2 : FPath → Bool,
          (upload_video exampleUploadEnv d2).1 =
            (upload_video exampleUploadEnv (fun _ => true)).1)
      ∧ ((∀ q, (fun _ : FPath => true) q = true) →
          ∀ p, fsHas (upload_video exampleUploadEnv (fun _ => true)).2.2 p =
            fsHas exampleUploadEnv.fs0 p)) :=
  ⟨⟨by decide, by decide, by decide, by decide, by decide⟩,
   upload_video_cleanup_every_path exampleUploadEnv (fun _ => true) (by decide) (by decide)
     (by decide) (by decide) (by decide)⟩

theorem invalid_grant_yields_reauth_witness :
    (strL "boom Invalid_Grant: revoked" = strL "boom " ++ strL "Invalid_Grant" ++ strL ": revoked"
      ∧ pyLower (strL "Invalid_Grant") = strL "invalid_grant"
      ∧ ((normToken (none : Option Str)).isNone || false) = true
      ∧ (Except.error (strL "boom Invalid_Grant: revoked") :
          Except Str (Option Str × Option Str)) = .error (strL "boom Invalid_Grant: revoked")
      ∧ some (strL "alice") = some (strL "alice")
      ∧ strL "alice" ≠ []
      ∧ some [strL "alice"] = some [strL "alice"]
      ∧ strL "alice" ∈ [strL "alice"])
    ∧ (get_youtube_service
        { token := none, expired := false,
          refreshResult := .error (strL "boom Invalid_Grant: revoked"),
          accountName := some (strL "alice") } = ServiceResult.reauthError
      ∧ refresh_token_route
          { accountname := some (strL "alice"), loadResult := some [strL "alice"],
            refreshResult := .error (strL "boom Invalid_Grant: revoked") } =
        RouteResp.err 401 (strL "OAuth refresh token is invalid or revoked")) :=
  ⟨⟨by decide, by decide, by decide, rfl, rfl, by decide, rfl, by decide⟩,
   invalid_grant_yields_reauth
     { token := none, expired := false,
       refreshResult := .error (strL "boom Invalid_Grant: revoked"),
       accountName := some (strL "alice") }
     { accountname := some (strL "alice"), loadResult := some [strL "alice"],
       refreshResult := .error (strL "boom Invalid_Grant: revoked") }
     (strL "boom Invalid_Grant: revoked") (strL "boom ") (strL "Invalid_Grant")
     (strL ": revoked") (strL "alice") [strL "alice"]
     (by decide) (by decide) (by decide) rfl rfl (by decide) rfl (by decide) rfl⟩

theorem refresh_route_no_token_witness :
    (some (strL "alice") = some (strL "alice")
      ∧ strL "alice" ≠ []
      ∧ some [strL "alice"] = some [strL "alice"]
      ∧ strL "alice" ∈ [strL "alice"]
      ∧ (Except.ok ((none : Option Str), (none : Option Str)) :
          Except Str (Option Str × Option Str)) = .ok (none, none))
    ∧ refresh_token_route
        { accountname := some (strL "alice"), loadResult := some [strL "alice"],
          refreshResult := .ok (none, none) } =
      RouteResp.err 500 (strL "No token received after refresh") :=
  ⟨⟨rfl, by decide, rfl, by decide, rfl⟩,
   refresh_route_no_token_is_error
     { accountname := some (strL "alice"), loadResult := some [strL "alice"],
       refreshResult := .ok (none, none) }
     (strL "alice") [strL "alice"] none rfl (by decide) rfl (by decide) rfl⟩

theorem update_account_token_witness :
    (exampleParse (strL "filedata") = some exampleAccounts
      ∧ lookupStr exampleAccounts (strL "bob") = none)
    ∧ update_account_token exampleParse exampleDump
        (some (strL "filedata")) none (strL "bob") (strL "tok2") none =
      (false, some (strL "filedata"), none) :=
  ⟨⟨rfl, by decide⟩,
   update_account_token_unknown_account exampleParse exampleDump
     (strL "filedata") none (strL "bob") (strL "tok2") none exampleAccounts
     rfl (by decide)⟩

theorem clean_title_whole_word_truncation_witness :
    (((cleanedTitle (strL "aa bb cccc")).length : Int) > availableBudget [] 14)
    ∧ (clean_title (strL "aa bb cccc") [] 14 =
        joinSpace (specAccumWords (pySplit (cleanedTitle (strL "aa bb cccc"))) 0
          (availableBudget [] 14)) ++ hashtagText []
      ∧ specAccumWords (pySplit (cleanedTitle (strL "aa bb cccc"))) 0
          (availableBudget [] 14) <+: pySplit (cleanedTitle (strL "aa bb cccc"))
      ∧ ∀ w ∈ pySplit (joinSpace (specAccumWords (pySplit (cleanedTitle (strL "aa bb cccc")))
          0 (availableBudget [] 14))),
          w ∈ pySplit (cleanedTitle (strL "aa bb cccc"))) :=
  ⟨by decide, clean_title_whole_word_truncation (strL "aa bb cccc") [] 14 (by decide)⟩

theorem clean_title_suffix_overflow_witness :
    (5 ≤ (hashtagText []).length)
    ∧ clean_title (strL "Hi there") [] 5 = hashtagText [] :=
  ⟨by decide, clean_title_suffix_overflow (strL "Hi there") [] 5 (by decide)⟩

theorem mix_audio_postcondition_witness :
    (fsHas [(strL "v.mp4", 4), (strL "s.mp3", 2)] (strL "v.mp4") = true
      ∧ fsHas [(strL "v.mp4", 4), (strL "s.mp3", 2)] (strL "s.mp3") = true
      ∧ (MixEnv.mk true true (some 7)).probeOk = true
      ∧ fsHas [(strL "v.mp4", 4), (strL "s.mp3", 2)] (strL "o.mp4") = false)
    ∧ ((((MixEnv.mk true true (some 7)).ffmpegExitOk = false
          ∨ (MixEnv.mk true true (some 7)).ffmpegOutput = none
          ∨ (MixEnv.mk true true (some 7)).ffmpegOutput = some 0) →
        (mix_audio (MixEnv.mk true true (some 7)) [(strL "v.mp4", 4), (strL "s.mp3", 2)]
          (strL "v.mp4") (strL "s.mp3") (strL "o.mp4") (strL "mix")).1 =
            .error .processingFailed
        ∧ fsHas (mix_audio (MixEnv.mk true true (some 7))
            [(strL "v.mp4", 4), (strL "s.mp3", 2)] (strL "v.mp4") (strL "s.mp3")
            (strL "o.mp4") (strL "mix")).2.1 (strL "o.mp4") = false)
      ∧ ((mix_audio (MixEnv.mk true true (some 7)) [(strL "v.mp4", 4), (strL "s.mp3", 2)]
            (strL "v.mp4") (strL "s.mp3") (strL "o.mp4") (strL "mix")).1 =
              .ok (strL "o.mp4") ↔
          (MixEnv.mk true true (some 7)).ffmpegExitOk = true
          ∧ ∃ n, (MixEnv.mk true true (some 7)).ffmpegOutput = some n ∧ 0 < n)
      ∧ ((mix_audio (MixEnv.mk true true (some 7)) [(strL "v.mp4", 4), (strL "s.mp3", 2)]
            (strL "v.mp4") (strL "s.mp3") (strL "o.mp4") (strL "mix")).1 =
              .ok (strL "o.mp4") →
          fsHas (mix_audio (MixEnv.mk true true (some 7))
            [(strL "v.mp4", 4), (strL "s.mp3", 2)] (strL "v.mp4") (strL "s.mp3")
            (strL "o.mp4") (strL "mix")).2.1 (strL "o.mp4") = true
          ∧ 0 < fsSize (mix_audio (MixEnv.mk true true (some 7))
              [(strL "v.mp4", 4), (strL "s.mp3", 2)] (strL "v.mp4") (strL "s.mp3")
              (strL "o.mp4") (strL "mix")).2.1 (strL "o.mp4"))) :=
  ⟨⟨by decide, by decide, rfl, by decide⟩,
   mix_audio_postcondition (MixEnv.mk true true (some 7))
     [(strL "v.mp4", 4), (strL "s.mp3", 2)] (strL "v.mp4") (strL "s.mp3") (strL "o.mp4")
     (strL "mix") (by decide) (by decide) rfl (by decide)⟩

theorem mix_audio_missing_input_witness :
    (fsHas ([] : FS) (strL "v.mp4") = false ∨ fsHas ([] : FS) (strL "s.mp3") = false)
    ∧ (isInputNotFound (mix_audio (MixEnv.mk true true (some 1)) ([] : FS) (strL "v.mp4")
          (strL "s.mp3") (strL "o.mp4") (strL "mix")).1 = true
      ∧ (mix_audio (MixEnv.mk true true (some 1)) ([] : FS) (strL "v.mp4") (strL "s.mp3")
          (strL "o.mp4") (strL "mix")).2.2.1 = false
      ∧ (mix_audio (MixEnv.mk true true (some 1)) ([] : FS) (strL "v.mp4") (strL "s.mp3")
          (strL "o.mp4") (strL "mix")).2.2.2 = false
      ∧ (mix_audio (MixEnv.mk true true (some 1)) ([] : FS) (strL "v.mp4") (strL "s.mp3")
          (strL "o.mp4") (strL "mix")).2.1 = ([] : FS)) :=
  ⟨by decide,
   mix_audio_missing_input (MixEnv.mk true true (some 1)) ([] : FS) (strL "v.mp4")
     (strL "s.mp3") (strL "o.mp4") (strL "mix") (by decide)⟩
